import Mathlib

/-!
Verification of the real-time room coordination core of the betrayal-web
server (Go backend): the Hub membership map and its broadcast fabric
(`src/backend/internal/game/hub.go`), the per-connection message dispatch
(`src/backend/internal/game/client.go`), the room registry
(`src/backend/internal/game/room.go` and the variant registry holding
`AdvancePhase`), and the HTTP admission handlers
(`src/backend/internal/handlers/rooms.go`, the websocket upgrade handler).

Go maps are embedded as association lists operated on by `alookup`,
`aset` and `aremove`; Go channels as a `Channel` record (bounded buffer
plus a closed flag); goroutine side effects (registering, starting pumps,
broadcasting, enqueueing on the connection's own channel) as explicit
effect lists; and sources of nondeterminism (clock, uuid, rand) as
parameters.
-/

set_option maxRecDepth 8000

/-! ## Association-list embedding of Go maps -/

/-- Lookup in an association list: the Go map read `m[k]` (first binding wins;
states built by the operations below keep keys unique). -/
def alookup {α β : Type} [DecidableEq α] (k : α) : List (α × β) → Option β
  | [] => none
  | (k', v) :: rest => if k' = k then some v else alookup k rest

/-- Insert-or-update in an association list: the Go map write `m[k] = v`. -/
def aset {α β : Type} [DecidableEq α] (k : α) (v : β) : List (α × β) → List (α × β)
  | [] => [(k, v)]
  | (k', v') :: rest => if k' = k then (k, v) :: rest else (k', v') :: aset k v rest

/-- Deletion from an association list: the Go map delete `delete(m, k)`. -/
def aremove {α β : Type} [DecidableEq α] (k : α) : List (α × β) → List (α × β)
  | [] => []
  | (k', v') :: rest => if k' = k then rest else (k', v') :: aremove k rest

theorem alookup_aset_self {α β : Type} [DecidableEq α] (k : α) (v : β)
    (l : List (α × β)) : alookup k (aset k v l) = some v := by
  induction l with
  | nil => simp [aset, alookup]
  | cons e rest ih =>
    obtain ⟨a, b⟩ := e
    by_cases h : a = k
    · simp [aset, h, alookup]
    · simp [aset, h, alookup, ih]

theorem alookup_aset_ne {α β : Type} [DecidableEq α] (k k' : α) (v : β)
    (l : List (α × β)) (hne : k ≠ k') : alookup k' (aset k v l) = alookup k' l := by
  induction l with
  | nil => simp [aset, alookup, hne]
  | cons e rest ih =>
    obtain ⟨a, b⟩ := e
    by_cases h : a = k
    · subst h
      simp [aset, alookup, hne]
    · simp [aset, h, alookup, ih]

theorem alookup_aremove_self {α β : Type} [DecidableEq α] (k : α)
    (l : List (α × β)) (hnd : (l.map Prod.fst).Nodup) :
    alookup k (aremove k l) = none := by
  induction l with
  | nil => simp [aremove, alookup]
  | cons e rest ih =>
    obtain ⟨a, b⟩ := e
    simp only [List.map_cons, List.nodup_cons] at hnd
    by_cases h : a = k
    · subst h
      simp only [aremove, if_pos rfl]
      clear ih
      induction rest with
      | nil => simp [alookup]
      | cons e' rest' ih' =>
        obtain ⟨a', b'⟩ := e'
        have hne : ¬ a' = a := by
          intro hc
          exact hnd.1 (by simp [hc])
        simp only [alookup, if_neg hne]
        refine ih' ⟨?_, ?_⟩
        · intro hm
          exact hnd.1 (List.mem_cons_of_mem _ hm)
        · exact (List.nodup_cons.mp hnd.2).2
    · simp only [aremove, if_neg h, alookup, if_neg h]
      exact ih hnd.2

theorem alookup_aremove_ne {α β : Type} [DecidableEq α] (k k' : α)
    (l : List (α × β)) (hne : k ≠ k') : alookup k' (aremove k l) = alookup k' l := by
  induction l with
  | nil => simp [aremove]
  | cons e rest ih =>
    obtain ⟨a, b⟩ := e
    by_cases h : a = k
    · subst h
      simp [aremove, alookup, hne]
    · simp only [aremove, if_neg h, alookup]
      by_cases h' : a = k'
      · simp [h']
      · simp [h', ih]

/-- Every binding of `aset k v l` is either the new binding or one of `l`. -/
theorem mem_aset {α β : Type} [DecidableEq α] (k : α) (v : β) (l : List (α × β))
    (e : α × β) (he : e ∈ aset k v l) : e = (k, v) ∨ e ∈ l := by
  induction l with
  | nil =>
    simp only [aset] at he
    rcases List.mem_singleton.mp he with h
    exact Or.inl h
  | cons e' rest ih =>
    obtain ⟨a, b⟩ := e'
    by_cases h : a = k
    · simp only [aset, if_pos h, List.mem_cons] at he
      rcases he with he | he
      · exact Or.inl he
      · exact Or.inr (List.mem_cons_of_mem _ he)
    · simp only [aset, if_neg h, List.mem_cons] at he
      rcases he with he | he
      · exact Or.inr (he ▸ List.mem_cons_self _ _)
      · rcases ih he with h' | h'
        · exact Or.inl h'
        · exact Or.inr (List.mem_cons_of_mem _ h')

/-- Every binding of `aremove k l` is a binding of `l`. -/
theorem mem_aremove {α β : Type} [DecidableEq α] (k : α) (l : List (α × β))
    (e : α × β) (he : e ∈ aremove k l) : e ∈ l := by
  induction l with
  | nil =>
    simp [aremove] at he
  | cons e' rest ih =>
    obtain ⟨a, b⟩ := e'
    by_cases h : a = k
    · simp only [aremove, if_pos h] at he
      exact List.mem_cons_of_mem _ he
    · simp only [aremove, if_neg h, List.mem_cons] at he
      rcases he with he | he
      · exact he ▸ List.mem_cons_self _ _
      · exact List.mem_cons_of_mem _ (ih he)

/-- A successful lookup returns one of the list's bindings. -/
theorem alookup_mem {α β : Type} [DecidableEq α] (k : α) (l : List (α × β))
    (v : β) (h : alookup k l = some v) : (k, v) ∈ l := by
  induction l with
  | nil => simp [alookup] at h
  | cons e rest ih =>
    obtain ⟨a, b⟩ := e
    by_cases h' : a = k
    · simp only [alookup, if_pos h'] at h
      subst h'
      obtain rfl : b = v := Option.some.inj h
      exact List.mem_cons_self _ _
    · simp only [alookup, if_neg h'] at h
      exact List.mem_cons_of_mem _ (ih h)

/-! ## Message envelope (client.go: WSMessage, NewWSMessage, message constants) -/

/-- A JSON value, the embedding of the untyped `interface{}` payloads the Go
code hands to `encoding/json`. -/
inductive Jval : Type where
  | null : Jval
  | bool (b : Bool) : Jval
  | int (n : Int) : Jval
  | str (s : String) : Jval
  | arr (items : List Jval) : Jval
  | obj (fields : List (String × Jval)) : Jval

/-- WSMessage is the envelope for all WebSocket messages
(`client.go`: fields `Type`, `Timestamp`, `Data` with JSON tags
`type`, `timestamp`, `data`). -/
structure WSMessage : Type where
  type : String
  timestamp : Int
  data : Jval

/-- NewWSMessage creates a message with the current timestamp; the clock read
`time.Now().Unix()` is the explicit parameter `now`. -/
def NewWSMessage (now : Int) (msgType : String) (data : Jval) : WSMessage :=
  { type := msgType, timestamp := now, data := data }

def MsgTypePlayerJoined : String := "player_joined"
def MsgTypePlayerLeft : String := "player_left"
def MsgTypePlayerRejoined : String := "player_rejoined"
def MsgTypePhaseChanged : String := "phase_changed"
def MsgTypeGameStarted : String := "game_started"
def MsgTypeGameEnded : String := "game_ended"
def MsgTypeActionSubmitted : String := "action_submitted"
def MsgTypeActionDeleted : String := "action_deleted"
def MsgTypeActionsCleared : String := "actions_cleared"
def MsgTypeRolesAssigned : String := "roles_assigned"
def MsgTypeRoleRevealed : String := "role_revealed"
def MsgTypeHostChanged : String := "host_changed"
def MsgTypePlayerKicked : String := "player_kicked"
def MsgTypeError : String := "error"
def MsgTypeSystemMessage : String := "system_message"

/-- PlayerJoinedData as a JSON object (`client.go`: struct with tags
`playerId`, `playerName`, `isHost`). -/
def playerJoinedData (playerID playerName : String) (isHost : Bool) : Jval :=
  .obj [("playerId", .str playerID), ("playerName", .str playerName),
        ("isHost", .bool isHost)]

/-- ErrorData as a JSON object (`client.go`: struct with tags `code`,
`message`). -/
def errorData (code message : String) : Jval :=
  .obj [("code", .str code), ("message", .str message)]

/-! ## Channels (the per-connection outbound queue `Send chan WSMessage`) -/

/-- A Go buffered channel of WSMessage: a bounded FIFO buffer plus the closed
flag. `cap` is the capacity given to `make(chan WSMessage, cap)`. -/
structure Channel : Type where
  buf : List WSMessage
  cap : Nat
  closed : Bool

/-- Outcome of the non-blocking send `select { case ch <- m: ... default: ... }`:
deliver when the buffer has room, take the `default` branch when it is full,
and panic when the channel has been closed (a Go send on a closed channel
panics, also inside `select`). -/
inductive TrySendResult : Type where
  | sent (ch : Channel) : TrySendResult
  | full : TrySendResult
  | panicked : TrySendResult

def chanTrySend (ch : Channel) (m : WSMessage) : TrySendResult :=
  if ch.closed then .panicked
  else if ch.buf.length < ch.cap then .sent { ch with buf := ch.buf ++ [m] }
  else .full

/-- Outcome of the plain blocking send `ch <- m` with no draining consumer
modelled: deliver when the buffer has room, suspend forever when it is full,
panic when the channel is closed. -/
inductive BlockSendResult : Type where
  | delivered (ch : Channel) : BlockSendResult
  | blocked : BlockSendResult
  | panicked : BlockSendResult

def chanSend (ch : Channel) (m : WSMessage) : BlockSendResult :=
  if ch.closed then .panicked
  else if ch.buf.length < ch.cap then .delivered { ch with buf := ch.buf ++ [m] }
  else .blocked

/-- `close(ch)` as observed through the channel state. -/
def closeChan (ch : Channel) : Channel := { ch with closed := true }

/-! ## Connections and the Hub (hub.go, and the Client record of client.go) -/

/-- A connection (`Client` in client.go). The `id` field stands for the Go
pointer identity of the `*Client`, which is what the Hub's member sets and
the channel store are keyed by. -/
structure Client : Type where
  id : Nat
  RoomCode : String
  PlayerID : String
  PlayerName : String
  IsHost : Bool
deriving DecidableEq

/-- The Hub state (hub.go): `rooms` is the membership map
`map[string]map[*Client]bool` (member sets as lists of client ids), and
`channels` records each client's outbound queue `Send`, keyed by client id. -/
structure Hub : Type where
  rooms : List (String × List Nat)
  channels : List (Nat × Channel)

/-- The empty hub produced by `NewHub()`. -/
def hubInit : Hub := { rooms := [], channels := [] }

/-- The `register` case of `Hub.Run`: lazily create the room's member set and
add the client (a Go set insert: a no-op when already present). -/
def hubRegister (c : Client) (h : Hub) : Hub :=
  match alookup c.RoomCode h.rooms with
  | none => { h with rooms := aset c.RoomCode [c.id] h.rooms }
  | some mems =>
      if c.id ∈ mems then h
      else { h with rooms := aset c.RoomCode (mems ++ [c.id]) h.rooms }

/-- The `unregister` case of `Hub.Run`: when the client is still a member,
remove it from its room's set, close its queue, and delete the room entry
when the set became empty. The returned flag records whether
`close(client.Send)` was executed by this event. -/
def hubUnregister (c : Client) (h : Hub) : Hub × Bool :=
  match alookup c.RoomCode h.rooms with
  | none => (h, false)
  | some mems =>
      if c.id ∈ mems then
        let mems' := mems.erase c.id
        let rooms' :=
          if mems'.isEmpty then aremove c.RoomCode h.rooms
          else aset c.RoomCode mems' h.rooms
        let channels' :=
          match alookup c.id h.channels with
          | none => h.channels
          | some ch => aset c.id (closeChan ch) h.channels
        ({ rooms := rooms', channels := channels' }, true)
      else (h, false)

/-- One send of a broadcast sweep: the non-blocking
`select { case client.Send <- message: default: close(client.Send);
delete(clients, client) }` applied to member `cid` of room `code`.
`none` models the panic of a send on a closed channel (and the degenerate
case of a member with no recorded channel). -/
def sendToMember (code : String) (m : WSMessage) (h : Hub) (cid : Nat) : Option Hub :=
  match alookup cid h.channels with
  | none => none
  | some ch =>
      match chanTrySend ch m with
      | .sent ch' => some { h with channels := aset cid ch' h.channels }
      | .full =>
          some { rooms :=
                   match alookup code h.rooms with
                   | none => h.rooms
                   | some mems => aset code (mems.erase cid) h.rooms,
                 channels := aset cid (closeChan ch) h.channels }
      | .panicked => none

/-- The `for client := range clients` sweep of a broadcast over one room's
member set. -/
def foldSend (code : String) (m : WSMessage) : List Nat → Hub → Option Hub
  | [], h => some h
  | cid :: rest, h => (sendToMember code m h cid).bind (foldSend code m rest)

/-- `Hub.BroadcastToRoom`: look the room up; broadcasting to a non-existent
room is a no-op; otherwise sweep the member set with non-blocking sends. -/
def BroadcastToRoom (code : String) (m : WSMessage) (h : Hub) : Option Hub :=
  match alookup code h.rooms with
  | none => some h
  | some mems => foldSend code m mems h

/-- The room-by-room sweep of the `broadcast` case of `Hub.Run`. -/
def runBroadcastAux (m : WSMessage) : List String → Hub → Option Hub
  | [], h => some h
  | code :: rest, h =>
      (match alookup code h.rooms with
       | none => some h
       | some mems => foldSend code m mems h).bind (runBroadcastAux m rest)

/-- The `broadcast` case of `Hub.Run`: iterate all rooms and all members with
the same non-blocking enqueue and slow-consumer eviction. -/
def runBroadcast (m : WSMessage) (h : Hub) : Option Hub :=
  runBroadcastAux m (h.rooms.map Prod.fst) h

/-- The client `cid` has a recorded, still-open outbound queue. -/
def chanOpenAt (h : Hub) (cid : Nat) : Bool :=
  match alookup cid h.channels with
  | some ch => !ch.closed
  | none => false

/-- Well-formedness of a hub state, as maintained by the Go program: room
keys are distinct (a Go map), no client appears in two member sets or twice
in one (a `*Client` is registered only under its own `RoomCode`, sets do not
duplicate), and every member's queue is recorded and open (the Hub closes a
queue only when it simultaneously removes the member). -/
def Hub.wf (h : Hub) : Prop :=
  (h.rooms.map Prod.fst).Nodup ∧
  ((h.rooms.map Prod.snd).flatten).Nodup ∧
  ∀ cid ∈ (h.rooms.map Prod.snd).flatten, chanOpenAt h cid = true

instance (h : Hub) : Decidable h.wf := by
  unfold Hub.wf
  infer_instance

/-- The membership-map invariant claimed by the spec: no room code maps to an
empty connection set. -/
def noEmptyRooms (h : Hub) : Bool :=
  h.rooms.all fun e => !e.2.isEmpty

/-! ## The broadcast sweep, member by member -/

theorem chanOpenAt_eq_true {h : Hub} {cid : Nat} (hc : chanOpenAt h cid = true) :
    ∃ ch, alookup cid h.channels = some ch ∧ ch.closed = false := by
  unfold chanOpenAt at hc
  cases hl : alookup cid h.channels with
  | none => rw [hl] at hc; exact absurd hc (by simp)
  | some ch => rw [hl] at hc; exact ⟨ch, rfl, by simpa using hc⟩

theorem chanOpenAt_congr {h h' : Hub} {cid : Nat}
    (he : alookup cid h'.channels = alookup cid h.channels) :
    chanOpenAt h' cid = chanOpenAt h cid := by
  unfold chanOpenAt
  rw [he]

/-- What one broadcast sweep (`for client := range clients` with the
non-blocking `select` send) does, member by member: it never gets stuck when
every member's queue is open; each member whose queue has room receives the
message appended to its queue and stays a member; each member whose queue is
full has its queue closed and is removed from the room's member set; queues
of non-members and the member sets of other rooms are untouched. -/
theorem foldSend_spec (code : String) (m : WSMessage) :
    ∀ (L : List Nat) (h : Hub), L.Nodup →
    (∀ c ∈ L, chanOpenAt h c = true) →
    ∃ h', foldSend code m L h = some h' ∧
      (∀ x, x ∉ L → alookup x h'.channels = alookup x h.channels) ∧
      (∀ x ∈ L, ∀ ch, alookup x h.channels = some ch →
        (ch.buf.length < ch.cap →
          alookup x h'.channels = some { ch with buf := ch.buf ++ [m] }) ∧
        (¬ ch.buf.length < ch.cap →
          alookup x h'.channels = some { ch with closed := true })) ∧
      (∀ code', code' ≠ code → alookup code' h'.rooms = alookup code' h.rooms) ∧
      (∀ ms0, alookup code h.rooms = some ms0 → ms0.Nodup →
        ∃ ms', alookup code h'.rooms = some ms' ∧
          (∀ x, x ∉ L → (x ∈ ms' ↔ x ∈ ms0)) ∧
          (∀ x ∈ L, ∀ ch, alookup x h.channels = some ch →
            (ch.buf.length < ch.cap → (x ∈ ms' ↔ x ∈ ms0)) ∧
            (¬ ch.buf.length < ch.cap → x ∉ ms'))) := by
  intro L
  induction L with
  | nil =>
    intro h _ _
    exact ⟨h, rfl, fun _ _ => rfl, fun x hx => absurd hx (List.not_mem_nil x),
      fun _ _ => rfl,
      fun ms0 hms0 _ => ⟨ms0, hms0, fun _ _ => Iff.rfl,
        fun x hx => absurd hx (List.not_mem_nil x)⟩⟩
  | cons c rest ih =>
    intro h hnd hopen
    obtain ⟨hc_rest, hnd_rest⟩ := List.nodup_cons.mp hnd
    obtain ⟨ch0, hch0, hcl0⟩ := chanOpenAt_eq_true (hopen c (List.mem_cons_self _ _))
    by_cases hlt : ch0.buf.length < ch0.cap
    · -- the head member's queue has room: the message is enqueued
      set ch0' : Channel := { ch0 with buf := ch0.buf ++ [m] } with hch0'
      set h1 : Hub := { h with channels := aset c ch0' h.channels } with hh1
      have hstep : sendToMember code m h c = some h1 := by
        simp [sendToMember, hch0, chanTrySend, hcl0, hlt, hh1, hch0']
      have hch1 : ∀ x, x ≠ c → alookup x h1.channels = alookup x h.channels := by
        intro x hx
        exact alookup_aset_ne c x _ _ (fun hc => hx hc.symm)
      obtain ⟨h', hfold, K2, K3, K4, K5⟩ := ih h1 hnd_rest (by
        intro x hx
        have hxc : x ≠ c := fun he => hc_rest (he ▸ hx)
        rw [chanOpenAt_congr (hch1 x hxc)]
        exact hopen x (List.mem_cons_of_mem _ hx))
      refine ⟨h', ?_, ?_, ?_, ?_, ?_⟩
      · simp only [foldSend, hstep, Option.bind_some]
        exact hfold
      · intro x hx
        have hxc : x ≠ c := fun he => hx (he ▸ List.mem_cons_self _ _)
        have hxrest : x ∉ rest := fun hr => hx (List.mem_cons_of_mem _ hr)
        rw [K2 x hxrest, hch1 x hxc]
      · intro x hx ch hch
        rcases List.mem_cons.mp hx with rfl | hxr
        · obtain rfl : ch0 = ch := Option.some.inj (hch0 ▸ hch)
          constructor
          · intro _
            rw [K2 x hc_rest, hh1]
            exact alookup_aset_self x ch0' h.channels
          · intro hge
            exact absurd hlt hge
        · have hxc : x ≠ c := fun he => hc_rest (he ▸ hxr)
          have hch1x : alookup x h1.channels = some ch := by rw [hch1 x hxc, hch]
          exact K3 x hxr ch hch1x
      · intro code' hne
        rw [K4 code' hne]
      · intro ms0 hms0 hndms0
        have hms1 : alookup code h1.rooms = some ms0 := hms0
        obtain ⟨ms', hms', M2, M3⟩ := K5 ms0 hms1 hndms0
        refine ⟨ms', hms', ?_, ?_⟩
        · intro x hx
          exact M2 x (fun hr => hx (List.mem_cons_of_mem _ hr))
        · intro x hx ch hch
          rcases List.mem_cons.mp hx with rfl | hxr
          · obtain rfl : ch0 = ch := Option.some.inj (hch0 ▸ hch)
            exact ⟨fun _ => M2 x hc_rest, fun hge => absurd hlt hge⟩
          · have hxc : x ≠ c := fun he => hc_rest (he ▸ hxr)
            have hch1x : alookup x h1.channels = some ch := by rw [hch1 x hxc, hch]
            exact M3 x hxr ch hch1x
    · -- the head member's queue is full: close it and evict the member
      set h1 : Hub :=
        { rooms :=
            match alookup code h.rooms with
            | none => h.rooms
            | some mems => aset code (mems.erase c) h.rooms,
          channels := aset c (closeChan ch0) h.channels } with hh1
      have hstep : sendToMember code m h c = some h1 := by
        simp [sendToMember, hch0, chanTrySend, hcl0, hlt, hh1]
      have hch1 : ∀ x, x ≠ c → alookup x h1.channels = alookup x h.channels := by
        intro x hx
        exact alookup_aset_ne c x _ _ (fun hc => hx hc.symm)
      have hrooms1 : ∀ code', code' ≠ code →
          alookup code' h1.rooms = alookup code' h.rooms := by
        intro code' hne
        rw [hh1]
        cases hms : alookup code h.rooms with
        | none => rfl
        | some mems =>
          exact alookup_aset_ne code code' _ _ (fun hc => hne hc.symm)
      obtain ⟨h', hfold, K2, K3, K4, K5⟩ := ih h1 hnd_rest (by
        intro x hx
        have hxc : x ≠ c := fun he => hc_rest (he ▸ hx)
        rw [chanOpenAt_congr (hch1 x hxc)]
        exact hopen x (List.mem_cons_of_mem _ hx))
      refine ⟨h', ?_, ?_, ?_, ?_, ?_⟩
      · simp only [foldSend, hstep, Option.bind_some]
        exact hfold
      · intro x hx
        have hxc : x ≠ c := fun he => hx (he ▸ List.mem_cons_self _ _)
        have hxrest : x ∉ rest := fun hr => hx (List.mem_cons_of_mem _ hr)
        rw [K2 x hxrest, hch1 x hxc]
      · intro x hx ch hch
        rcases List.mem_cons.mp hx with rfl | hxr
        · obtain rfl : ch0 = ch := Option.some.inj (hch0 ▸ hch)
          constructor
          · intro hlt'
            exact absurd hlt' hlt
          · intro _
            rw [K2 x hc_rest, hh1]
            exact alookup_aset_self x (closeChan ch0) h.channels
        · have hxc : x ≠ c := fun he => hc_rest (he ▸ hxr)
          have hch1x : alookup x h1.channels = some ch := by rw [hch1 x hxc, hch]
          exact K3 x hxr ch hch1x
      · intro code' hne
        rw [K4 code' hne, hrooms1 code' hne]
      · intro ms0 hms0 hndms0
        have hms1 : alookup code h1.rooms = some (ms0.erase c) := by
          rw [hh1]
          simp only [hms0]
          exact alookup_aset_self code (ms0.erase c) h.rooms
        obtain ⟨ms', hms', M2, M3⟩ := K5 (ms0.erase c) hms1 (List.Nodup.erase c hndms0)
        refine ⟨ms', hms', ?_, ?_⟩
        · intro x hx
          have hxc : x ≠ c := fun he => hx (he ▸ List.mem_cons_self _ _)
          have hxrest : x ∉ rest := fun hr => hx (List.mem_cons_of_mem _ hr)
          rw [M2 x hxrest]
          exact List.mem_erase_of_ne hxc
        · intro x hx ch hch
          rcases List.mem_cons.mp hx with rfl | hxr
          · obtain rfl : ch0 = ch := Option.some.inj (hch0 ▸ hch)
            refine ⟨fun hlt' => absurd hlt' hlt, fun _ => ?_⟩
            rw [M2 x hc_rest]
            exact List.Nodup.not_mem_erase hndms0
          · have hxc : x ≠ c := fun he => hc_rest (he ▸ hxr)
            have hch1x : alookup x h1.channels = some ch := by rw [hch1 x hxc, hch]
            refine ⟨fun hlt' => ?_, fun hge => (M3 x hxr ch hch1x).2 hge⟩
            rw [(M3 x hxr ch hch1x).1 hlt']
            exact List.mem_erase_of_ne hxc

/-- In an association list whose values flatten to a duplicate-free list,
the values found under two distinct keys are disjoint. -/
theorem alookup_flatten_disjoint {l : List (String × List Nat)}
    (hnd : ((l.map Prod.snd).flatten).Nodup) :
    ∀ c1 ms1 c2 ms2, alookup c1 l = some ms1 → alookup c2 l = some ms2 →
      c1 ≠ c2 → ∀ x ∈ ms1, x ∉ ms2 := by
  induction l with
  | nil =>
    intro c1 ms1 c2 ms2 h1
    simp [alookup] at h1
  | cons e rest ih =>
    obtain ⟨a, ms⟩ := e
    simp only [List.map_cons, List.flatten_cons, List.nodup_append] at hnd
    obtain ⟨hums, hurest, hdisj⟩ := hnd
    intro c1 ms1 c2 ms2 h1 h2 hne x hx1
    have sub_mem : ∀ c ms', alookup c rest = some ms' →
        ∀ y ∈ ms', y ∈ (rest.map Prod.snd).flatten := by
      intro c ms' hc y hy
      exact List.mem_flatten.mpr
        ⟨ms', List.mem_map_of_mem Prod.snd (alookup_mem c rest ms' hc), hy⟩
    by_cases ha1 : a = c1
    · have hms1 : ms = ms1 := by
        simpa [alookup, ha1] using h1
      have ha2 : ¬ a = c2 := fun hc => hne (ha1 ▸ hc)
      have h2' : alookup c2 rest = some ms2 := by
        simpa [alookup, ha2] using h2
      intro hx2
      exact hdisj (hms1 ▸ hx1) (sub_mem c2 ms2 h2' x hx2)
    · have h1' : alookup c1 rest = some ms1 := by
        simpa [alookup, ha1] using h1
      by_cases ha2 : a = c2
      · have hms2 : ms = ms2 := by
          simpa [alookup, ha2] using h2
        intro hx2
        exact hdisj (hms2 ▸ hx2) (sub_mem c1 ms1 h1' x hx1)
      · have h2' : alookup c2 rest = some ms2 := by
          simpa [alookup, ha2] using h2
        exact ih hurest c1 ms1 c2 ms2 h1' h2' hne x hx1

/-- In a well-formed hub every room's member list is duplicate-free and all
its members hold open queues. -/
theorem wf_room_facts {h : Hub} (hwf : h.wf) {code : String} {mems : List Nat}
    (hms : alookup code h.rooms = some mems) :
    mems.Nodup ∧ ∀ x ∈ mems, chanOpenAt h x = true := by
  obtain ⟨-, hflat, hopen⟩ := hwf
  have hmem : mems ∈ h.rooms.map Prod.snd :=
    List.mem_map_of_mem Prod.snd (alookup_mem code h.rooms mems hms)
  constructor
  · exact (List.nodup_flatten.mp hflat).1 mems hmem
  · intro x hx
    exact hopen x (List.mem_flatten.mpr ⟨mems, hmem, hx⟩)

/-- In a well-formed hub the member lists of two distinct rooms are
disjoint. -/
theorem wf_rooms_disjoint {h : Hub} (hwf : h.wf) {c1 c2 : String}
    {ms1 ms2 : List Nat} (h1 : alookup c1 h.rooms = some ms1)
    (h2 : alookup c2 h.rooms = some ms2) (hne : c1 ≠ c2) :
    ∀ x ∈ ms1, x ∉ ms2 :=
  alookup_flatten_disjoint hwf.2.1 c1 ms1 c2 ms2 h1 h2 hne

/-- What the room-by-room sweep of the global broadcast does: it never gets
stuck when the swept rooms' members are duplicate-free with open queues and
pairwise disjoint; each member of each swept room receives the message or is
evicted with a closed queue exactly as in the single-room sweep; rooms
outside the swept list and queues of non-members are untouched. -/
theorem runBroadcastAux_spec (m : WSMessage) :
    ∀ (codes : List String) (h : Hub),
    (∀ code ∈ codes, ∀ ms, alookup code h.rooms = some ms →
       ms.Nodup ∧ ∀ x ∈ ms, chanOpenAt h x = true) →
    (∀ c1 ∈ codes, ∀ c2 ∈ codes, c1 ≠ c2 → ∀ ms1 ms2,
       alookup c1 h.rooms = some ms1 → alookup c2 h.rooms = some ms2 →
       ∀ x ∈ ms1, x ∉ ms2) →
    codes.Nodup →
    ∃ h', runBroadcastAux m codes h = some h' ∧
      (∀ x, (∀ code ∈ codes, ∀ ms, alookup code h.rooms = some ms → x ∉ ms) →
          alookup x h'.channels = alookup x h.channels) ∧
      (∀ code', code' ∉ codes → alookup code' h'.rooms = alookup code' h.rooms) ∧
      (∀ code ∈ codes, ∀ ms0, alookup code h.rooms = some ms0 →
        ∃ ms', alookup code h'.rooms = some ms' ∧
          ∀ x ∈ ms0, ∀ ch, alookup x h.channels = some ch →
            (ch.buf.length < ch.cap →
               alookup x h'.channels = some { ch with buf := ch.buf ++ [m] } ∧
               x ∈ ms') ∧
            (¬ ch.buf.length < ch.cap →
               alookup x h'.channels = some { ch with closed := true } ∧
               x ∉ ms')) := by
  intro codes
  induction codes with
  | nil =>
    intro h _ _ _
    exact ⟨h, rfl, fun _ _ => rfl, fun _ _ => rfl,
      fun code hcode => absurd hcode (List.not_mem_nil code)⟩
  | cons code0 rest ih =>
    intro h hval hdisj hnd
    obtain ⟨h0_rest, hnd_rest⟩ := List.nodup_cons.mp hnd
    cases hms : alookup code0 h.rooms with
    | none =>
      obtain ⟨h', hrun, K2, K3, K4⟩ := ih h
        (fun code hc => hval code (List.mem_cons_of_mem _ hc))
        (fun c1 hc1 c2 hc2 => hdisj c1 (List.mem_cons_of_mem _ hc1)
          c2 (List.mem_cons_of_mem _ hc2))
        hnd_rest
      refine ⟨h', ?_, ?_, ?_, ?_⟩
      · simp only [runBroadcastAux, hms, Option.bind_some]
        exact hrun
      · intro x hx
        exact K2 x (fun code hc => hx code (List.mem_cons_of_mem _ hc))
      · intro code' hc'
        exact K3 code' (fun hr => hc' (List.mem_cons_of_mem _ hr))
      · intro code hcode ms0 hms0
        rcases List.mem_cons.mp hcode with rfl | hcr
        · rw [hms] at hms0
          exact absurd hms0 (by simp)
        · exact K4 code hcr ms0 hms0
    | some L0 =>
      obtain ⟨hndL0, hopenL0⟩ := hval code0 (List.mem_cons_self _ _) L0 hms
      obtain ⟨h1, hfold, F2, F3, F4, F5⟩ := foldSend_spec code0 m L0 h hndL0 hopenL0
      obtain ⟨ms1, hms1, M2, M3⟩ := F5 L0 hms hndL0
      have hne_rest : ∀ code ∈ rest, code ≠ code0 :=
        fun code hc he => h0_rest (he ▸ hc)
      have hroomsF : ∀ code ∈ rest, alookup code h1.rooms = alookup code h.rooms :=
        fun code hc => F4 code (hne_rest code hc)
      have hout : ∀ code ∈ rest, ∀ ms, alookup code h.rooms = some ms →
          ∀ x ∈ ms, x ∉ L0 := by
        intro code hc ms hlk
        exact hdisj code (List.mem_cons_of_mem _ hc) code0 (List.mem_cons_self _ _)
          (hne_rest code hc) ms L0 hlk hms
      obtain ⟨h', hrun, K2, K3, K4⟩ := ih h1
        (by
          intro code hc ms hlk
          rw [hroomsF code hc] at hlk
          obtain ⟨hndms, hopenms⟩ := hval code (List.mem_cons_of_mem _ hc) ms hlk
          refine ⟨hndms, ?_⟩
          intro x hx
          rw [chanOpenAt_congr (F2 x (hout code hc ms hlk x hx))]
          exact hopenms x hx)
        (by
          intro c1 hc1 c2 hc2 hne ms1' ms2' hl1 hl2
          rw [hroomsF c1 hc1] at hl1
          rw [hroomsF c2 hc2] at hl2
          exact hdisj c1 (List.mem_cons_of_mem _ hc1) c2 (List.mem_cons_of_mem _ hc2)
            hne ms1' ms2' hl1 hl2)
        hnd_rest
      refine ⟨h', ?_, ?_, ?_, ?_⟩
      · simp only [runBroadcastAux, hms, hfold, Option.bind_some]
        exact hrun
      · intro x hx
        have hxL0 : x ∉ L0 := hx code0 (List.mem_cons_self _ _) L0 hms
        rw [K2 x (by
          intro code hc ms hlk
          rw [hroomsF code hc] at hlk
          exact hx code (List.mem_cons_of_mem _ hc) ms hlk)]
        exact F2 x hxL0
      · intro code' hc'
        have hcr : code' ∉ rest := fun hr => hc' (List.mem_cons_of_mem _ hr)
        have h0 : code' ≠ code0 := fun he => hc' (he ▸ List.mem_cons_self _ _)
        rw [K3 code' hcr]
        exact F4 code' h0
      · intro code hcode ms0 hms0
        rcases List.mem_cons.mp hcode with rfl | hcr
        · rw [hms] at hms0
          obtain rfl : L0 = ms0 := Option.some.inj hms0
          have hmsfinal : alookup code h'.rooms = some ms1 := by
            rw [K3 code h0_rest]
            exact hms1
          refine ⟨ms1, hmsfinal, ?_⟩
          intro x hx ch hch
          have hpres : alookup x h'.channels = alookup x h1.channels := by
            refine K2 x ?_
            intro code' hc' ms hlk
            rw [hroomsF code' hc'] at hlk
            intro hxms
            exact hout code' hc' ms hlk x hxms hx
          refine ⟨fun hlt => ⟨?_, ?_⟩, fun hge => ⟨?_, ?_⟩⟩
          · rw [hpres]
            exact (F3 x hx ch hch).1 hlt
          · exact ((M3 x hx ch hch).1 hlt).mpr hx
          · rw [hpres]
            exact (F3 x hx ch hch).2 hge
          · exact (M3 x hx ch hch).2 hge
        · have hms0' : alookup code h1.rooms = some ms0 := by
            rw [hroomsF code hcr]
            exact hms0
          obtain ⟨ms', hms', outc⟩ := K4 code hcr ms0 hms0'
          refine ⟨ms', hms', ?_⟩
          intro x hx ch hch
          have hxL0 : x ∉ L0 := hout code hcr ms0 hms0 x hx
          have hch1 : alookup x h1.channels = some ch := by
            rw [F2 x hxL0]
            exact hch
          exact outc x hx ch hch1

/-! ## C1: the non-blocking enqueue and slow-consumer eviction -/

/-- C1: during any broadcast — the Hub event loop's global broadcast or
`BroadcastToRoom` — every member's enqueue is a non-blocking attempt and the
broadcast completes (no send ever blocks or panics from a well-formed
state): a member whose queue has room receives the envelope appended to its
queue and stays a member, and a member whose queue is full has that queue
closed and is removed from its room's member set; both outcomes hold for
every member of the swept room simultaneously, so the sends to every
remaining member of the same broadcast are still attempted. -/
theorem broadcast_slow_consumer_policy (h : Hub) (code : String) (m : WSMessage)
    (cid : Nat) (ch : Channel) (mems : List Nat)
    (hwf : h.wf)
    (hms : alookup code h.rooms = some mems)
    (hmem : cid ∈ mems)
    (hch : alookup cid h.channels = some ch) :
    (∃ h', BroadcastToRoom code m h = some h' ∧
       (ch.buf.length < ch.cap →
          alookup cid h'.channels = some { ch with buf := ch.buf ++ [m] } ∧
          ∃ ms', alookup code h'.rooms = some ms' ∧ cid ∈ ms') ∧
       (¬ ch.buf.length < ch.cap →
          alookup cid h'.channels = some { ch with closed := true } ∧
          ∃ ms', alookup code h'.rooms = some ms' ∧ cid ∉ ms')) ∧
    (∃ h', runBroadcast m h = some h' ∧
       (ch.buf.length < ch.cap →
          alookup cid h'.channels = some { ch with buf := ch.buf ++ [m] } ∧
          ∃ ms', alookup code h'.rooms = some ms' ∧ cid ∈ ms') ∧
       (¬ ch.buf.length < ch.cap →
          alookup cid h'.channels = some { ch with closed := true } ∧
          ∃ ms', alookup code h'.rooms = some ms' ∧ cid ∉ ms')) := by
  obtain ⟨hndms, hopenms⟩ := wf_room_facts hwf hms
  constructor
  · obtain ⟨h', hfold, F2, F3, F4, F5⟩ := foldSend_spec code m mems h hndms hopenms
    obtain ⟨ms', hms', M2, M3⟩ := F5 mems hms hndms
    refine ⟨h', ?_, ?_, ?_⟩
    · simp only [BroadcastToRoom, hms]
      exact hfold
    · intro hlt
      exact ⟨(F3 cid hmem ch hch).1 hlt, ms', hms',
        ((M3 cid hmem ch hch).1 hlt).mpr hmem⟩
    · intro hge
      exact ⟨(F3 cid hmem ch hch).2 hge, ms', hms', (M3 cid hmem ch hch).2 hge⟩
  · have hcode_mem : code ∈ h.rooms.map Prod.fst :=
      List.mem_map_of_mem Prod.fst (alookup_mem code h.rooms mems hms)
    obtain ⟨h', hrun, K2, K3, K4⟩ := runBroadcastAux_spec m (h.rooms.map Prod.fst) h
      (fun code' _ ms hlk => wf_room_facts hwf hlk)
      (fun c1 _ c2 _ hne ms1 ms2 hl1 hl2 => wf_rooms_disjoint hwf hl1 hl2 hne)
      hwf.1
    obtain ⟨ms', hms', outc⟩ := K4 code hcode_mem mems hms
    refine ⟨h', hrun, ?_, ?_⟩
    · intro hlt
      obtain ⟨hchf, hmemf⟩ := (outc cid hmem ch hch).1 hlt
      exact ⟨hchf, ms', hms', hmemf⟩
    · intro hge
      obtain ⟨hchf, hmemf⟩ := (outc cid hmem ch hch).2 hge
      exact ⟨hchf, ms', hms', hmemf⟩

def wMsg0 : WSMessage := { type := "pong", timestamp := 1, data := .null }

def wMsg : WSMessage := { type := "system_message", timestamp := 5, data := .null }

/-- A two-member room: member 1 has a queue with room, member 2 a full
queue. -/
def wHub : Hub :=
  { rooms := [("R", [1, 2])],
    channels := [(1, { buf := [], cap := 2, closed := false }),
                 (2, { buf := [wMsg0], cap := 1, closed := false })] }

theorem broadcast_slow_consumer_policy_witness :
    (∃ h', BroadcastToRoom "R" wMsg wHub = some h' ∧
       alookup 2 h'.channels = some { buf := [wMsg0], cap := 1, closed := true } ∧
       ∃ ms', alookup "R" h'.rooms = some ms' ∧ 2 ∉ ms') ∧
    (∃ h', runBroadcast wMsg wHub = some h' ∧
       alookup 2 h'.channels = some { buf := [wMsg0], cap := 1, closed := true } ∧
       ∃ ms', alookup "R" h'.rooms = some ms' ∧ 2 ∉ ms') := by
  obtain ⟨⟨h1, hb1, -, hge1⟩, ⟨h2, hb2, -, hge2⟩⟩ :=
    broadcast_slow_consumer_policy wHub "R" wMsg 2
      { buf := [wMsg0], cap := 1, closed := false } [1, 2]
      (by decide) rfl (by decide) rfl
  obtain ⟨hc1, hm1⟩ := hge1 (by decide)
  obtain ⟨hc2, hm2⟩ := hge2 (by decide)
  exact ⟨⟨h1, hb1, hc1, hm1⟩, ⟨h2, hb2, hc2, hm2⟩⟩

/-! ## C8: double unregister -/

/-- C8: unregistering is idempotent. Processing a second unregister event for
a connection already removed leaves the hub state (membership map included)
unchanged and does not execute `close(client.Send)` again, and an unregister
for a connection that is not a member (never registered or already removed)
is a complete no-op. -/
theorem unregister_idempotent (h : Hub) (c : Client) (hwf : h.wf) :
    hubUnregister c (hubUnregister c h).1 = ((hubUnregister c h).1, false) ∧
    ((∀ ms, alookup c.RoomCode h.rooms = some ms → c.id ∉ ms) →
      hubUnregister c h = (h, false)) := by
  constructor
  · cases hl : alookup c.RoomCode h.rooms with
    | none =>
      have h1 : hubUnregister c h = (h, false) := by
        simp [hubUnregister, hl]
      rw [h1]
      simp [hubUnregister, hl]
    | some ms =>
      by_cases hin : c.id ∈ ms
      · have hndms : ms.Nodup := (wf_room_facts hwf hl).1
        have h1 : (hubUnregister c h).1 =
            { rooms :=
                if (ms.erase c.id).isEmpty then aremove c.RoomCode h.rooms
                else aset c.RoomCode (ms.erase c.id) h.rooms,
              channels :=
                match alookup c.id h.channels with
                | none => h.channels
                | some ch => aset c.id (closeChan ch) h.channels } := by
          simp [hubUnregister, hl, hin]
        rw [h1]
        by_cases hemp : (ms.erase c.id).isEmpty
        · have : alookup c.RoomCode (aremove c.RoomCode h.rooms) = none :=
            alookup_aremove_self c.RoomCode h.rooms hwf.1
          simp [hubUnregister, hemp, this]
        · have : alookup c.RoomCode (aset c.RoomCode (ms.erase c.id) h.rooms) =
              some (ms.erase c.id) := alookup_aset_self _ _ _
          have hnot : c.id ∉ ms.erase c.id := List.Nodup.not_mem_erase hndms
          simp [hubUnregister, hemp, this, hnot]
      · have h1 : hubUnregister c h = (h, false) := by
          simp [hubUnregister, hl, hin]
        rw [h1]
        simp [hubUnregister, hl, hin]
  · intro hno
    cases hl : alookup c.RoomCode h.rooms with
    | none => simp [hubUnregister, hl]
    | some ms => simp [hubUnregister, hl, hno ms hl]

/-- A member of room "R" together with an open recorded queue. -/
def w8Hub : Hub :=
  { rooms := [("R", [7])],
    channels := [(7, { buf := [], cap := 256, closed := false })] }

def w8Client : Client :=
  { id := 7, RoomCode := "R", PlayerID := "p7", PlayerName := "Glo", IsHost := false }

theorem unregister_idempotent_witness :
    hubUnregister w8Client (hubUnregister w8Client w8Hub).1 =
      ((hubUnregister w8Client w8Hub).1, false) :=
  (unregister_idempotent w8Hub w8Client (by decide)).1

/-! ## C2: the no-empty-rooms invariant under hub operations -/

/-- One hub operation, as the system's goroutines drive it: a register event
(the websocket handler makes the client's fresh `Send` queue with
`make(chan WSMessage, 256)` before handing the client to the hub), an
unregister event, a room-scoped broadcast, or a global broadcast. -/
inductive HubOp : Type where
  | register (c : Client) : HubOp
  | unregister (c : Client) : HubOp
  | roomCast (code : String) (m : WSMessage) : HubOp
  | globalCast (m : WSMessage) : HubOp

/-- The fresh outbound queue `make(chan WSMessage, 256)` the websocket
handler creates for a new connection. -/
def freshQueue : Channel := { buf := [], cap := 256, closed := false }

def applyOp (h : Hub) : HubOp → Option Hub
  | .register c =>
      some (hubRegister c { h with channels := aset c.id freshQueue h.channels })
  | .unregister c => some (hubUnregister c h).1
  | .roomCast code m => BroadcastToRoom code m h
  | .globalCast m => runBroadcast m h

def applyOps : Hub → List HubOp → Option Hub
  | h, [] => some h
  | h, op :: rest => (applyOp h op).bind (fun h1 => applyOps h1 rest)

/-- The operations the `register`/`unregister` cases of `Hub.Run` handle, as
opposed to the broadcast sweeps. -/
def HubOp.isMembershipOp : HubOp → Bool
  | .register _ => true
  | .unregister _ => true
  | .roomCast _ _ => false
  | .globalCast _ => false

theorem noEmptyRooms_eq_true {h : Hub} :
    noEmptyRooms h = true ↔ ∀ e ∈ h.rooms, e.2 ≠ [] := by
  unfold noEmptyRooms
  rw [List.all_eq_true]
  constructor
  · intro ha e he
    have := ha e he
    simpa [List.isEmpty_iff] using this
  · intro ha e he
    simpa [List.isEmpty_iff] using ha e he

/-- A register event preserves the no-empty-rooms invariant: it only ever
adds a member or creates a one-member set. -/
theorem noEmptyRooms_hubRegister (c : Client) (h : Hub)
    (hne : noEmptyRooms h = true) : noEmptyRooms (hubRegister c h) = true := by
  rw [noEmptyRooms_eq_true] at hne ⊢
  unfold hubRegister
  cases hl : alookup c.RoomCode h.rooms with
  | none =>
    intro e he
    rcases mem_aset _ _ _ e he with rfl | hmem
    · simp
    · exact hne e hmem
  | some mems =>
    by_cases hin : c.id ∈ mems
    · simpa [hin] using hne
    · simp only [hin, if_neg]
      intro e he
      rcases mem_aset _ _ _ e he with rfl | hmem
      · simp
      · exact hne e hmem

/-- An unregister event preserves the no-empty-rooms invariant: when the
departing member was the last one, the room entry itself is deleted. -/
theorem noEmptyRooms_hubUnregister (c : Client) (h : Hub)
    (hne : noEmptyRooms h = true) :
    noEmptyRooms (hubUnregister c h).1 = true := by
  rw [noEmptyRooms_eq_true] at hne
  unfold hubUnregister
  cases hl : alookup c.RoomCode h.rooms with
  | none => simpa [noEmptyRooms_eq_true] using hne
  | some mems =>
    by_cases hin : c.id ∈ mems
    · simp only [hin, if_pos]
      rw [noEmptyRooms_eq_true]
      by_cases hemp : (mems.erase c.id).isEmpty
      · simp only [hemp, if_pos]
        intro e he
        exact hne e (mem_aremove _ _ e he)
      · simp only [hemp, if_neg, Bool.false_eq_true, not_false_eq_true]
        intro e he
        rcases mem_aset _ _ _ e he with rfl | hmem
        · simpa [List.isEmpty_iff] using hemp
        · exact hne e hmem
    · simpa [hin, noEmptyRooms_eq_true] using hne

def cexClient : Client :=
  { id := 1, RoomCode := "ROOM01", PlayerID := "p1", PlayerName := "Alice",
    IsHost := false }

def cexMsg : WSMessage := { type := "system_message", timestamp := 0, data := .null }

/-- Register one connection, then broadcast to its room 257 times without the
write pump draining: the 257th send finds the 256-slot queue full and evicts
the last member. -/
def cexOps : List HubOp :=
  HubOp.register cexClient :: List.replicate 257 (HubOp.roomCast "ROOM01" cexMsg)

/-- C2 counterexample: a sequence of register and broadcast operations from
the empty hub reaches a state whose membership map carries room "ROOM01"
bound to the empty connection set — the broadcast paths evict slow consumers
from the member set but never delete the emptied room entry. -/
theorem hub_empty_room_reachable :
    ∃ h', applyOps hubInit cexOps = some h' ∧
      alookup "ROOM01" h'.rooms = some [] ∧ noEmptyRooms h' = false :=
  ⟨_, rfl, rfl, rfl⟩

/-- C2 (amended): after any sequence of register and unregister operations
the membership map contains no empty connection-set — the unregister case
deletes a room entry the moment its set becomes empty. (Broadcast-path
slow-consumer eviction is excluded: it can leave an empty set, see the
counterexample.) -/
theorem hub_no_empty_rooms_membership_ops (ops : List HubOp) :
    ∀ (h h' : Hub), (∀ op ∈ ops, op.isMembershipOp = true) →
    noEmptyRooms h = true → applyOps h ops = some h' →
    noEmptyRooms h' = true := by
  induction ops with
  | nil =>
    intro h h' _ hne happ
    obtain rfl : h = h' := Option.some.inj happ
    exact hne
  | cons op rest ih =>
    intro h h' hmem hne happ
    cases op with
    | register c =>
      simp only [applyOps, applyOp, Option.bind_some] at happ
      refine ih _ h' (fun o ho => hmem o (List.mem_cons_of_mem _ ho)) ?_ happ
      exact noEmptyRooms_hubRegister c _ (by simpa [noEmptyRooms] using hne)
    | unregister c =>
      simp only [applyOps, applyOp, Option.bind_some] at happ
      refine ih _ h' (fun o ho => hmem o (List.mem_cons_of_mem _ ho)) ?_ happ
      exact noEmptyRooms_hubUnregister c h hne
    | roomCast code m =>
      have := hmem _ (List.mem_cons_self _ _)
      simp [HubOp.isMembershipOp] at this
    | globalCast m =>
      have := hmem _ (List.mem_cons_self _ _)
      simp [HubOp.isMembershipOp] at this

def w2ClientA : Client :=
  { id := 1, RoomCode := "ROOM01", PlayerID := "p1", PlayerName := "Alice",
    IsHost := false }

def w2ClientB : Client :=
  { id := 2, RoomCode := "ROOM01", PlayerID := "p2", PlayerName := "Bob",
    IsHost := false }

/-- Register two connections into one room, then unregister both. -/
def w2Ops : List HubOp :=
  [HubOp.register w2ClientA, HubOp.register w2ClientB,
   HubOp.unregister w2ClientA, HubOp.unregister w2ClientB]

theorem hub_no_empty_rooms_membership_ops_witness :
    noEmptyRooms ((applyOps hubInit w2Ops).getD hubInit) = true := by
  have happ : applyOps hubInit w2Ops = some ((applyOps hubInit w2Ops).getD hubInit) := rfl
  exact hub_no_empty_rooms_membership_ops w2Ops hubInit _
    (by decide) rfl happ

/-! ## Client dispatch (client.go: handleIncomingMessage, sendError) -/

/-- One side effect of handling an inbound envelope: a (blocking) send on
this connection's own `Send` queue, or a `Hub.BroadcastToRoom` call. -/
inductive ClientEffect : Type where
  | enqueueSelf (m : WSMessage) : ClientEffect
  | broadcastRoom (code : String) (m : WSMessage) : ClientEffect

/-- `sendError` (client.go): build the error envelope and send it on this
client's own queue. -/
def sendError (now : Int) (code message : String) : ClientEffect :=
  .enqueueSelf (NewWSMessage now MsgTypeError (errorData code message))

/-- `handleIncomingMessage` (client.go): route an inbound envelope by its
`type`. The Go `switch` is the chain below; `submit_action` and a host's
`host_command` only log. The clock reads inside `NewWSMessage` are the
parameter `now`. -/
def handleIncomingMessage (c : Client) (msg : WSMessage) (now : Int) :
    List ClientEffect :=
  if msg.type = "join_room" then
    [.broadcastRoom c.RoomCode (NewWSMessage now MsgTypePlayerRejoined
        (playerJoinedData c.PlayerID c.PlayerName c.IsHost))]
  else if msg.type = "submit_action" then
    []
  else if msg.type = "host_command" then
    if !c.IsHost then
      [sendError now "not_host" "Only the host can perform this action"]
    else
      []
  else if msg.type = "ping" then
    [.enqueueSelf (NewWSMessage now "pong" .null)]
  else
    [sendError now "unknown_message_type" ("Unknown message type: " ++ msg.type)]

/-- The inbound message types the dispatch switch names. -/
def inboundTypes : List String :=
  ["join_room", "submit_action", "host_command", "ping"]

/-- The three self-send cases of `handleIncomingMessage`, computed. -/
theorem handleIncoming_self_send_cases (c : Client) (msg : WSMessage) (now : Int) :
    (msg.type = "host_command" → c.IsHost = false →
      handleIncomingMessage c msg now =
        [.enqueueSelf { type := MsgTypeError, timestamp := now,
                        data := errorData "not_host"
                          "Only the host can perform this action" }]) ∧
    (msg.type = "ping" →
      handleIncomingMessage c msg now =
        [.enqueueSelf { type := "pong", timestamp := now, data := .null }]) ∧
    (msg.type ∉ inboundTypes →
      handleIncomingMessage c msg now =
        [.enqueueSelf { type := MsgTypeError, timestamp := now,
                        data := errorData "unknown_message_type"
                          ("Unknown message type: " ++ msg.type) }]) := by
  refine ⟨?_, ?_, ?_⟩
  · intro ht hh
    simp [handleIncomingMessage, ht, hh, sendError, NewWSMessage]
  · intro ht
    simp [handleIncomingMessage, ht, NewWSMessage]
  · intro ht
    simp only [inboundTypes, List.mem_cons, List.not_mem_nil, or_false, not_or] at ht
    obtain ⟨h1, h2, h3, h4⟩ := ht
    simp [handleIncomingMessage, h1, h2, h3, h4, sendError, NewWSMessage]

/-- C5: dispatch isolation. A `host_command` from a non-host connection
yields exactly one effect — the `not_host` error envelope enqueued on that
connection's own queue; a `ping` yields exactly the `pong` envelope on that
connection's own queue; any type outside the inbound set yields exactly the
`unknown_message_type` error envelope on that connection's own queue. In
each case the effect list contains no broadcast and no send aimed at any
other connection. -/
theorem dispatch_isolation (c : Client) (msg : WSMessage) (now : Int) :
    (msg.type = "host_command" → c.IsHost = false →
      handleIncomingMessage c msg now =
        [.enqueueSelf { type := MsgTypeError, timestamp := now,
                        data := errorData "not_host"
                          "Only the host can perform this action" }]) ∧
    (msg.type = "ping" →
      handleIncomingMessage c msg now =
        [.enqueueSelf { type := "pong", timestamp := now, data := .null }]) ∧
    (msg.type ∉ inboundTypes →
      handleIncomingMessage c msg now =
        [.enqueueSelf { type := MsgTypeError, timestamp := now,
                        data := errorData "unknown_message_type"
                          ("Unknown message type: " ++ msg.type) }]) :=
  handleIncoming_self_send_cases c msg now

theorem dispatch_isolation_witness :
    handleIncomingMessage
        { id := 3, RoomCode := "R", PlayerID := "p3", PlayerName := "Cam",
          IsHost := false }
        { type := "ping", timestamp := 9, data := .null } 4 =
      [.enqueueSelf { type := "pong", timestamp := 4, data := .null }] :=
  (dispatch_isolation
      { id := 3, RoomCode := "R", PlayerID := "p3", PlayerName := "Cam",
        IsHost := false }
      { type := "ping", timestamp := 9, data := .null } 4).2.1 rfl

/-! ## C9: the unguarded blocking sends of the read-loop handlers -/

/-- Outcome of running a handler's effects against this connection's own
queue: all self-sends delivered, or the read loop stuck on a full queue, or
a panic from a send on a closed queue. (Broadcast effects travel through the
Hub, not this queue.) -/
inductive ExecResult : Type where
  | ok (ch : Channel) : ExecResult
  | blocked : ExecResult
  | panicked : ExecResult

def execEffects (ch : Channel) : List ClientEffect → ExecResult
  | [] => .ok ch
  | .enqueueSelf m :: rest =>
      match chanSend ch m with
      | .delivered ch' => execEffects ch' rest
      | .blocked => .blocked
      | .panicked => .panicked
  | .broadcastRoom _ _ :: rest => execEffects ch rest

/-- Handling one inbound envelope, with the sends on this connection's own
queue executed with Go's plain blocking send semantics (`c.Send <- ...`,
unguarded in the `ping` case and in `sendError`). -/
def execIncoming (c : Client) (ch : Channel) (msg : WSMessage) (now : Int) :
    ExecResult :=
  execEffects ch (handleIncomingMessage c msg now)

/-- C9: the `ping` reply and the inline error sends (`not_host`,
`unknown_message_type`) enqueue with an unguarded blocking send on the
connection's own queue. If the Hub has already closed that queue, handling
such a message is a send on a closed channel — a panic, not a dropped
message; if the queue is full, the read loop blocks instead of applying the
non-blocking drop policy. -/
theorem blocking_self_send_hazard (c : Client) (ch : Channel) (msg : WSMessage)
    (now : Int)
    (hcase : msg.type = "ping" ∨ (msg.type = "host_command" ∧ c.IsHost = false) ∨
      msg.type ∉ inboundTypes) :
    (ch.closed = true → execIncoming c ch msg now = .panicked) ∧
    (ch.closed = false → ¬ ch.buf.length < ch.cap →
      execIncoming c ch msg now = .blocked) := by
  have heff : ∃ m, handleIncomingMessage c msg now = [.enqueueSelf m] := by
    rcases hcase with hping | ⟨hhc, hnh⟩ | hunk
    · exact ⟨_, (handleIncoming_self_send_cases c msg now).2.1 hping⟩
    · exact ⟨_, (handleIncoming_self_send_cases c msg now).1 hhc hnh⟩
    · exact ⟨_, (handleIncoming_self_send_cases c msg now).2.2 hunk⟩
  obtain ⟨m, hm⟩ := heff
  constructor
  · intro hcl
    simp [execIncoming, hm, execEffects, chanSend, hcl]
  · intro hcl hfull
    simp [execIncoming, hm, execEffects, chanSend, hcl, hfull]

theorem blocking_self_send_hazard_witness :
    execIncoming
        { id := 3, RoomCode := "R", PlayerID := "p3", PlayerName := "Cam",
          IsHost := false }
        { buf := [], cap := 256, closed := true }
        { type := "ping", timestamp := 9, data := .null } 4 = .panicked :=
  (blocking_self_send_hazard
      { id := 3, RoomCode := "R", PlayerID := "p3", PlayerName := "Cam",
        IsHost := false }
      { buf := [], cap := 256, closed := true }
      { type := "ping", timestamp := 9, data := .null } 4
      (Or.inl rfl)).1 rfl

/-! ## Room registry variant with AdvancePhase (src/unnamed/part_010 and its
models file) -/

structure PlayerP : Type where
  ID : String
  Name : String
  RoleID : Int
  IsAlive : Bool
  JoinedAt : Int
deriving DecidableEq

structure ActionP : Type where
  ID : String
  PlayerID : String
  type : String
  TargetID : String
  Phase : String
  Timestamp : Int
deriving DecidableEq

/-- The Room aggregate of the variant registry (`models.Room` with a player
map and action list). -/
structure RoomP : Type where
  Code : String
  HostID : String
  Phase : String
  Players : List (String × PlayerP)
  Actions : List ActionP
  CreatedAt : Int
deriving DecidableEq

inductive RoomErr : Type where
  | roomNotFound : RoomErr
deriving DecidableEq

/-- The phase switch inside `RoomManager.AdvancePhase`: `LOBBY → NIGHT`,
`NIGHT → DAY`, `DAY → NIGHT`, and any other value falls through the Go
`switch` unchanged. -/
def phaseStep (phase : String) : String :=
  if phase = "LOBBY" then "NIGHT"
  else if phase = "NIGHT" then "DAY"
  else if phase = "DAY" then "NIGHT"
  else phase

/-- `RoomManager.AdvancePhase` (src/unnamed/part_010): look the room up under
the exclusive guard; absent code is `ErrRoomNotFound`, otherwise mutate the
room's phase in place by the switch. The mutated registry is returned
explicitly. -/
def AdvancePhase (code : String) (rooms : List (String × RoomP)) :
    Except RoomErr (List (String × RoomP)) :=
  match alookup code rooms with
  | none => .error .roomNotFound
  | some room => .ok (aset code { room with Phase := phaseStep room.Phase } rooms)

/-- C3: for a room present in the registry, `AdvancePhase` maps `LOBBY` to
`NIGHT`, `NIGHT` to `DAY` and `DAY` to `NIGHT`, leaves any other phase value
unchanged, and changes nothing else (the room's other fields and every other
registry entry survive untouched); for an absent code it returns
`RoomNotFound` and produces no new registry state. -/
theorem advancePhase_spec (code : String) (rooms : List (String × RoomP)) :
    (alookup code rooms = none → AdvancePhase code rooms = .error .roomNotFound) ∧
    (∀ room, alookup code rooms = some room →
      ∃ rooms', AdvancePhase code rooms = .ok rooms' ∧
        alookup code rooms' = some { room with Phase := phaseStep room.Phase } ∧
        (∀ code', code' ≠ code → alookup code' rooms' = alookup code' rooms)) ∧
    phaseStep "LOBBY" = "NIGHT" ∧ phaseStep "NIGHT" = "DAY" ∧
    phaseStep "DAY" = "NIGHT" ∧
    (∀ p, p ∉ (["LOBBY", "NIGHT", "DAY"] : List String) → phaseStep p = p) := by
  refine ⟨?_, ?_, rfl, rfl, rfl, ?_⟩
  · intro hnone
    simp [AdvancePhase, hnone]
  · intro room hsome
    refine ⟨aset code { room with Phase := phaseStep room.Phase } rooms, ?_, ?_, ?_⟩
    · simp [AdvancePhase, hsome]
    · exact alookup_aset_self _ _ _
    · intro code' hne
      exact alookup_aset_ne code code' _ _ (fun he => hne he.symm)
  · intro p hp
    simp only [List.mem_cons, List.not_mem_nil, or_false, not_or] at hp
    obtain ⟨h1, h2, h3⟩ := hp
    simp [phaseStep, h1, h2, h3]

def w3Room : RoomP :=
  { Code := "TEST01", HostID := "host-123", Phase := "LOBBY", Players := [],
    Actions := [], CreatedAt := 0 }

theorem advancePhase_spec_witness :
    ∃ rooms', AdvancePhase "TEST01" [("TEST01", w3Room)] = .ok rooms' ∧
      alookup "TEST01" rooms' = some { w3Room with Phase := "NIGHT" } ∧
      (∀ code', code' ≠ "TEST01" →
        alookup code' rooms' = alookup code' [("TEST01", w3Room)]) :=
  (advancePhase_spec "TEST01" [("TEST01", w3Room)]).2.1 w3Room rfl

/-! ## Backend room registry (room.go, models/types.go) -/

/-- `models.Room` of the backend: the uuid and the two clock reads are
opaque values fixed at creation. -/
structure Room : Type where
  ID : String
  Code : String
  HostID : String
  Phase : String
  CreatedAt : Int
  UpdatedAt : Int
deriving DecidableEq

/-- The 36-character alphabet of `generateRoomCode`. -/
def letters : List Char := "ABCDEFGHIJKLMNOPQRSTUVWXYZ0123456789".toList

/-- `rand.Intn(n)` returns a value in `[0, n)`; the entropy source is the
draw `d`, reduced into range. -/
def randIntn (n d : Nat) : Nat := d % n

/-- `generateRoomCode` (room.go): six characters, each
`letters[rand.Intn(len(letters))]`; the i-th random draw is `draws i`. -/
def generateRoomCode (draws : Nat → Nat) : String :=
  String.mk ((List.range 6).map fun i =>
    letters.getD (randIntn letters.length (draws i)) 'A')

/-- `RoomManager.CreateRoom` (room.go): generate a code, build the Room in
phase LOBBY, store it under the code, return the code. The uuid and clock
reads are the parameters `idv` and `now`. -/
def CreateRoom (hostID : String) (draws : Nat → Nat) (idv : String) (now : Int)
    (rooms : List (String × Room)) : String × List (String × Room) :=
  let code := generateRoomCode draws
  (code, aset code
    { ID := idv, Code := code, HostID := hostID, Phase := "LOBBY",
      CreatedAt := now, UpdatedAt := now } rooms)

/-- `RoomManager.GetRoom` (room.go): lookup under the shared guard;
`ErrRoomNotFound` when absent. -/
def GetRoom (code : String) (rooms : List (String × Room)) : Except RoomErr Room :=
  match alookup code rooms with
  | none => .error .roomNotFound
  | some room => .ok room

/-- `RoomManager.JoinRoom` (room.go): lookup; `ErrRoomNotFound` when absent,
otherwise mint a fresh player id (`uuid.New().String()`, the parameter
`freshID`) and return it — the variant stores nothing. -/
def JoinRoom (code : String) (playerName : String) (freshID : String)
    (rooms : List (String × Room)) : Except RoomErr String :=
  match alookup code rooms with
  | none => .error .roomNotFound
  | some _ => .ok freshID

/-- The shape `^[A-Z0-9]{6}$`: length six, every character an ASCII capital
letter or digit. -/
def isRoomCodeShape (s : String) : Bool :=
  s.length == 6 &&
    s.toList.all fun c => ('A' ≤ c && c ≤ 'Z') || ('0' ≤ c && c ≤ '9')

theorem letters_getD_shape (k : Nat) :
    (('A' ≤ letters.getD k 'A' && letters.getD k 'A' ≤ 'Z') ||
      ('0' ≤ letters.getD k 'A' && letters.getD k 'A' ≤ '9')) = true := by
  by_cases hk : k < letters.length
  · have hall : ∀ j ∈ List.range letters.length,
        (('A' ≤ letters.getD j 'A' && letters.getD j 'A' ≤ 'Z') ||
          ('0' ≤ letters.getD j 'A' && letters.getD j 'A' ≤ '9')) = true := by
      decide
    exact hall k (List.mem_range.mpr hk)
  · rw [List.getD_eq_default _ _ (Nat.le_of_not_lt hk)]
    decide

/-- C6: every code `generateRoomCode` returns is exactly six characters from
the alphabet `A–Z0–9` — it matches `^[A-Z0-9]{6}$` — and the code
`CreateRoom` returns is such a generated code, whatever the entropy, uuid,
clock and prior registry. -/
theorem generateRoomCode_shape (draws : Nat → Nat) (hostID idv : String)
    (now : Int) (rooms : List (String × Room)) :
    isRoomCodeShape (generateRoomCode draws) = true ∧
    (CreateRoom hostID draws idv now rooms).1 = generateRoomCode draws := by
  refine ⟨?_, rfl⟩
  unfold isRoomCodeShape generateRoomCode
  rw [Bool.and_eq_true]
  constructor
  · simp [String.length]
  · rw [List.all_eq_true]
    intro c hc
    have hc' : c ∈ (List.range 6).map fun i =>
        letters.getD (randIntn letters.length (draws i)) 'A' := hc
    obtain ⟨i, -, rfl⟩ := List.mem_map.mp hc'
    exact letters_getD_shape _

/-! ## Envelope codec (client.go: WriteJSON/ReadJSON on WSMessage) -/

/-- Serializing the envelope: `json.Marshal` of `WSMessage` emits an object
with exactly the tagged fields `type`, `timestamp`, `data`. -/
def encodeWS (m : WSMessage) : Jval :=
  .obj [("type", .str m.type), ("timestamp", .int m.timestamp),
        ("data", m.data)]

/-- Parsing the envelope: `json.Unmarshal` into `WSMessage` requires an
object; a present `type` must be a string and a present `timestamp` a
(whole) number, a missing field keeps the Go zero value, `data` holds any
value (`interface{}`), and unknown keys are ignored. -/
def decodeWS (j : Jval) : Option WSMessage :=
  match j with
  | .obj fields =>
      let tv : Option String :=
        match alookup "type" fields with
        | none => some ""
        | some (.str s) => some s
        | some _ => none
      let ts : Option Int :=
        match alookup "timestamp" fields with
        | none => some 0
        | some (.int n) => some n
        | some _ => none
      let dv : Jval :=
        match alookup "data" fields with
        | none => .null
        | some v => v
      match tv, ts with
      | some t, some n => some { type := t, timestamp := n, data := dv }
      | _, _ => none
  | _ => none

/-- The closed set of outbound envelope types (the `MsgType…` constants of
client.go together with the literal `"pong"` the ping handler emits). -/
def outboundTypes : List String :=
  [MsgTypePlayerJoined, MsgTypePlayerRejoined, MsgTypePlayerLeft,
   MsgTypePhaseChanged, MsgTypeGameStarted, MsgTypeGameEnded,
   MsgTypeActionSubmitted, MsgTypeActionDeleted, MsgTypeActionsCleared,
   MsgTypeRolesAssigned, MsgTypeRoleRevealed, MsgTypeHostChanged,
   MsgTypePlayerKicked, MsgTypeError, MsgTypeSystemMessage, "pong"]

/-- A field of a JSON object is a string. -/
def fieldIsStr (fields : List (String × Jval)) (k : String) : Bool :=
  match alookup k fields with
  | some (.str _) => true
  | _ => false

/-- Well-formedness of an envelope's `data` for its `type`, following the
spec's outbound schema table: identity fields are strings, `isHost` a bool,
`pong` carries null, and the game-engine payload types carry anything. -/
def wellFormedData (msgType : String) (data : Jval) : Bool :=
  if msgType = MsgTypePlayerJoined ∨ msgType = MsgTypePlayerRejoined then
    match data with
    | .obj fields =>
        fieldIsStr fields "playerId" && fieldIsStr fields "playerName" &&
          (match alookup "isHost" fields with
           | some (.bool _) => true
           | _ => false)
    | _ => false
  else if msgType = MsgTypePlayerLeft then
    match data with
    | .obj fields => fieldIsStr fields "playerId" && fieldIsStr fields "playerName"
    | _ => false
  else if msgType = MsgTypePhaseChanged then
    match data with
    | .obj fields =>
        fieldIsStr fields "previousPhase" && fieldIsStr fields "currentPhase"
    | _ => false
  else if msgType = MsgTypeError then
    match data with
    | .obj fields => fieldIsStr fields "code" && fieldIsStr fields "message"
    | _ => false
  else if msgType = MsgTypeSystemMessage then
    match data with
    | .obj fields =>
        fieldIsStr fields "message" &&
          (match alookup "level" fields with
           | some (.str lv) => lv = "info" ∨ lv = "warning" ∨ lv = "error"
           | _ => false)
    | _ => false
  else if msgType = "pong" then
    match data with
    | .null => true
    | _ => false
  else
    true

/-- C7: encode then decode is the identity on envelopes whose type belongs
to the closed outbound set and whose data is well-formed for that type. -/
theorem encode_decode_id (m : WSMessage)
    (htype : m.type ∈ outboundTypes)
    (hdata : wellFormedData m.type m.data = true) :
    decodeWS (encodeWS m) = some m := by
  rfl

theorem encode_decode_id_witness :
    decodeWS (encodeWS { type := "pong", timestamp := 7, data := .null }) =
      some { type := "pong", timestamp := 7, data := .null } :=
  encode_decode_id { type := "pong", timestamp := 7, data := .null }
    (by decide) (by decide)

/-! ## Admission surface (handlers: UpgradeWebSocket, JoinRoom) -/

/-- A side effect the upgrade handler performs after the protocol switch, in
order: hand the client to the hub's register channel, start the write pump
goroutine, start the read pump goroutine, broadcast `player_joined` to the
room. -/
inductive UpgradeEffect : Type where
  | registerClient (c : Client) : UpgradeEffect
  | startWritePump (c : Client) : UpgradeEffect
  | startReadPump (c : Client) : UpgradeEffect
  | broadcastRoom (code : String) (m : WSMessage) : UpgradeEffect

/-- Result of the upgrade endpoint: a JSON refusal with an HTTP status (no
protocol switch), a failed `upgrader.Upgrade` (error returned to the
framework), or a protocol switch followed by the listed effects. -/
inductive UpgradeResult : Type where
  | refused (status : Nat) (errorMsg : String) : UpgradeResult
  | upgradeError : UpgradeResult
  | switched (effects : List UpgradeEffect) : UpgradeResult

/-- `RoomHandler.UpgradeWebSocket`: validate the `room` and `player` query
parameters (400 when either is empty), validate the room exists via
`GetRoom` (404), upgrade (the transport outcome is the parameter
`upgradeOk`), build the Client with `IsHost := false` and a fresh queue
(its identity is the parameter `cid`), register it, start both pumps, and
broadcast `player_joined` to the room. -/
def UpgradeWebSocket (roomCode playerID playerName : String)
    (rooms : List (String × Room)) (upgradeOk : Bool) (cid : Nat) (now : Int) :
    UpgradeResult :=
  if roomCode = "" ∨ playerID = "" then
    .refused 400 "Missing required parameters: room, player"
  else
    match GetRoom roomCode rooms with
    | .error _ => .refused 404 "Room not found"
    | .ok _ =>
        if upgradeOk then
          let client : Client :=
            { id := cid, RoomCode := roomCode, PlayerID := playerID,
              PlayerName := playerName, IsHost := false }
          .switched
            [.registerClient client, .startWritePump client,
             .startReadPump client,
             .broadcastRoom roomCode (NewWSMessage now MsgTypePlayerJoined
               (playerJoinedData playerID playerName false))]
        else .upgradeError

/-- C4: the upgrade endpoint refuses with a 4xx status and performs no
protocol switch exactly when the `room` or `player` parameter is empty
(status 400) or the room code is absent from the registry (status 404);
otherwise, when the transport upgrade succeeds, it switches protocols,
registers a Connection with `IsHost = false`, starts the write and read
pumps, and broadcasts `player_joined` to the room. -/
theorem upgrade_refusal_iff (roomCode playerID playerName : String)
    (rooms : List (String × Room)) (upgradeOk : Bool) (cid : Nat) (now : Int) :
    ((∃ status errorMsg,
        UpgradeWebSocket roomCode playerID playerName rooms upgradeOk cid now =
          .refused status errorMsg ∧ 400 ≤ status ∧ status < 500) ↔
      (roomCode = "" ∨ playerID = "" ∨ alookup roomCode rooms = none)) ∧
    ((roomCode = "" ∨ playerID = "") →
      UpgradeWebSocket roomCode playerID playerName rooms upgradeOk cid now =
        .refused 400 "Missing required parameters: room, player") ∧
    (roomCode ≠ "" → playerID ≠ "" → alookup roomCode rooms = none →
      UpgradeWebSocket roomCode playerID playerName rooms upgradeOk cid now =
        .refused 404 "Room not found") ∧
    (∀ room, roomCode ≠ "" → playerID ≠ "" →
      alookup roomCode rooms = some room → upgradeOk = true →
      UpgradeWebSocket roomCode playerID playerName rooms upgradeOk cid now =
        .switched
          [.registerClient
             { id := cid, RoomCode := roomCode, PlayerID := playerID,
               PlayerName := playerName, IsHost := false },
           .startWritePump
             { id := cid, RoomCode := roomCode, PlayerID := playerID,
               PlayerName := playerName, IsHost := false },
           .startReadPump
             { id := cid, RoomCode := roomCode, PlayerID := playerID,
               PlayerName := playerName, IsHost := false },
           .broadcastRoom roomCode
             { type := MsgTypePlayerJoined, timestamp := now,
               data := playerJoinedData playerID playerName false }]) := by
  refine ⟨?_, ?_, ?_, ?_⟩
  · constructor
    · rintro ⟨status, errorMsg, heq, -, -⟩
      by_cases hmiss : roomCode = "" ∨ playerID = ""
      · rcases hmiss with h | h
        · exact Or.inl h
        · exact Or.inr (Or.inl h)
      · cases hlk : alookup roomCode rooms with
        | none => exact Or.inr (Or.inr rfl)
        | some room =>
          exfalso
          rw [UpgradeWebSocket.eq_def] at heq
          simp only [if_neg hmiss, GetRoom, hlk] at heq
          cases hup : upgradeOk with
          | true => rw [hup] at heq; simp at heq
          | false => rw [hup] at heq; simp at heq
    · intro hcase
      by_cases hmiss : roomCode = "" ∨ playerID = ""
      · refine ⟨400, "Missing required parameters: room, player", ?_, by omega, by omega⟩
        simp [UpgradeWebSocket, hmiss]
      · have hlk : alookup roomCode rooms = none := by
          rcases hcase with h | h | h
          · exact absurd (Or.inl h) hmiss
          · exact absurd (Or.inr h) hmiss
          · exact h
        refine ⟨404, "Room not found", ?_, by omega, by omega⟩
        simp [UpgradeWebSocket, hmiss, GetRoom, hlk]
  · intro hmiss
    simp [UpgradeWebSocket, hmiss]
  · intro h1 h2 hlk
    have hmiss : ¬ (roomCode = "" ∨ playerID = "") := by
      rintro (h | h)
      · exact h1 h
      · exact h2 h
    simp [UpgradeWebSocket, hmiss, GetRoom, hlk]
  · intro room h1 h2 hlk hup
    have hmiss : ¬ (roomCode = "" ∨ playerID = "") := by
      rintro (h | h)
      · exact h1 h
      · exact h2 h
    simp [UpgradeWebSocket, hmiss, GetRoom, hlk, hup, NewWSMessage]

def w4Room : Room :=
  { ID := "u1", Code := "ROOM01", HostID := "host-id", Phase := "LOBBY",
    CreatedAt := 0, UpdatedAt := 0 }

theorem upgrade_refusal_iff_witness :
    UpgradeWebSocket "ROOM01" "p1" "Alice" [("ROOM01", w4Room)] true 1 3 =
      .switched
        [.registerClient
           { id := 1, RoomCode := "ROOM01", PlayerID := "p1",
             PlayerName := "Alice", IsHost := false },
         .startWritePump
           { id := 1, RoomCode := "ROOM01", PlayerID := "p1",
             PlayerName := "Alice", IsHost := false },
         .startReadPump
           { id := 1, RoomCode := "ROOM01", PlayerID := "p1",
             PlayerName := "Alice", IsHost := false },
         .broadcastRoom "ROOM01"
           { type := MsgTypePlayerJoined, timestamp := 3,
             data := playerJoinedData "p1" "Alice" false }] :=
  (upgrade_refusal_iff "ROOM01" "p1" "Alice" [("ROOM01", w4Room)] true 1 3).2.2.2
    w4Room (by decide) (by decide) rfl rfl

/-- An HTTP response: status and a flat JSON object of string fields, as the
room handlers emit with `(*c).JSON(status, map[string]string{...})`. -/
structure HttpResponse : Type where
  status : Nat
  body : List (String × String)
deriving DecidableEq

/-- `RoomHandler.JoinRoom` (handlers/rooms.go): `:code` path parameter,
body bound to `{playerName}` (`none` models a Bind failure → 400), then
`rm.JoinRoom`; its error is answered 404 `room not found`, success is
answered 200 with the minted playerId and the literal phase `"LOBBY"`. -/
def JoinRoomHandler (code : String) (bindResult : Option String)
    (rooms : List (String × Room)) (freshID : String) : HttpResponse :=
  match bindResult with
  | none => { status := 400, body := [("error", "invalid request")] }
  | some playerName =>
      match JoinRoom code playerName freshID rooms with
      | .error _ => { status := 404, body := [("error", "room not found")] }
      | .ok playerID =>
          { status := 200, body := [("playerId", playerID), ("phase", "LOBBY")] }

/-- C10: every successful join response carries the literal phase string
`"LOBBY"`, whatever phase the room is actually in — the response never
reflects a phase that has advanced past LOBBY. -/
theorem joinRoom_response_phase_literal (code playerName freshID : String)
    (rooms : List (String × Room)) (room : Room)
    (hlk : alookup code rooms = some room) :
    JoinRoomHandler code (some playerName) rooms freshID =
      { status := 200, body := [("playerId", freshID), ("phase", "LOBBY")] } ∧
    alookup "phase" (JoinRoomHandler code (some playerName) rooms freshID).body =
      some "LOBBY" := by
  have h : JoinRoomHandler code (some playerName) rooms freshID =
      { status := 200, body := [("playerId", freshID), ("phase", "LOBBY")] } := by
    simp [JoinRoomHandler, JoinRoom, hlk]
  exact ⟨h, by rw [h]; rfl⟩

def w10Room : Room :=
  { ID := "u2", Code := "NIGHT1", HostID := "host-id", Phase := "NIGHT",
    CreatedAt := 0, UpdatedAt := 0 }

theorem joinRoom_response_phase_literal_witness :
    JoinRoomHandler "NIGHT1" (some "Bob") [("NIGHT1", w10Room)] "pid-1" =
      { status := 200, body := [("playerId", "pid-1"), ("phase", "LOBBY")] } :=
  (joinRoom_response_phase_literal "NIGHT1" "Bob" "pid-1" [("NIGHT1", w10Room)]
    w10Room rfl).1
